/-
Verification of the real-time audio turn-taking core of the polyglott
language tutor: the voice-activity state machine (src/polyglott/vad),
the VAD-gated utterance recorder (src/polyglott/audio/recorder.py),
the interruptible duplex player (src/polyglott/audio/player.py) and the
tiered follow-up scheduler (src/polyglott/audio/pipeline.py).

The Python code is shallowly embedded: probabilities and durations are
rationals, Python ints are modelled as ℤ (counters) or ℕ (indices),
the per-frame speech-probability model is an oracle function, and the
blocking audio streams are oracle sequences of read events.  Fallible
calls return `Except String`.
-/
import Mathlib

namespace Polyglott

/-! ## Voice activity state machine (vad/base.py and vad/detector.py)

`BaseVADDetector._update_state` and `VoiceActivityDetector._update_state`
are textually identical; both are embedded as `updateState`. -/

/-- `SpeechState` enum from vad/base.py / vad/detector.py. -/
inductive SpeechState where
  | silence
  | speech_start
  | speaking
  | speech_end
deriving DecidableEq, Repr

/-- The mutable hysteresis state of a detector instance:
`_speech_frame_count`, `_silence_frame_count`, `_is_speaking`.
The counters are Python ints, modelled as ℤ. -/
structure VADState where
  speechFrameCount : ℤ
  silenceFrameCount : ℤ
  isSpeaking : Bool
deriving DecidableEq, Repr

/-- Hysteresis parameters `speech_pad_frames` / `silence_pad_frames`. -/
structure VADConfig where
  speechPadFrames : ℤ
  silencePadFrames : ℤ
deriving DecidableEq, Repr

/-- State after `__init__` and after `reset()`: both counters zero,
`_is_speaking = False` (vad/base.py lines 117-119 and 136-141,
vad/detector.py lines 95-97 and 126-132). -/
def vadReset : VADState := ⟨0, 0, false⟩

/-- `_update_state(is_speech)` (vad/base.py lines 196-222, identically
vad/detector.py lines 189-215): update the two counters, then decide the
state transition, returning the emitted `SpeechState` and the new state. -/
def updateState (cfg : VADConfig) (s : VADState) (isSpeech : Bool) :
    SpeechState × VADState :=
  let s1 : VADState :=
    if isSpeech then
      { s with speechFrameCount := s.speechFrameCount + 1, silenceFrameCount := 0 }
    else
      { s with silenceFrameCount := s.silenceFrameCount + 1, speechFrameCount := 0 }
  if !s1.isSpeaking then
    if cfg.speechPadFrames ≤ s1.speechFrameCount then
      (SpeechState.speech_start, { s1 with isSpeaking := true })
    else
      (SpeechState.silence, s1)
  else
    if cfg.silencePadFrames ≤ s1.silenceFrameCount then
      (SpeechState.speech_end, { s1 with isSpeaking := false })
    else
      (SpeechState.speaking, s1)

/-- `VADResult` dataclass. -/
structure VADResult where
  speechProbability : ℚ
  isSpeech : Bool
  state : SpeechState
deriving DecidableEq, Repr

/-- Per-instance configuration of a detector: `threshold` and the expected
chunk length (`_get_expected_samples()` for a backend of vad/base.py, or
`int(sample_rate * VAD_CHUNK_DURATION_MS / 1000)` in vad/detector.py),
plus the hysteresis pads. -/
structure DetectorConfig where
  threshold : ℚ
  expectedSamples : ℕ
  pads : VADConfig
deriving DecidableEq, Repr

/-- `process_chunk(audio_chunk)` (vad/base.py lines 165-194, with the same
structure in vad/detector.py lines 134-167).  The backend probability model
is the oracle `model`.  Raising `ValueError` is the `.error` branch; the
returned `VADState` is the detector state after the call (unchanged when
the shape check fails, since the exception is raised before any mutation). -/
def processChunk (model : List ℚ → ℚ) (cfg : DetectorConfig) (s : VADState)
    (chunk : List ℚ) : Except String VADResult × VADState :=
  if chunk.length ≠ cfg.expectedSamples then
    (Except.error "ValueError: wrong number of samples", s)
  else
    let p := model chunk
    let isSpeech : Bool := cfg.threshold ≤ p
    let r := updateState cfg.pads s isSpeech
    (Except.ok ⟨p, isSpeech, r.1⟩, r.2)

/-- The detector state after feeding the first `n` outcomes of the
boolean frame-classification sequence `bs` to `_update_state`, starting
from a freshly reset detector. -/
def vadAtF (cfg : VADConfig) (bs : ℕ → Bool) : ℕ → VADState
  | 0 => vadReset
  | n + 1 => (updateState cfg (vadAtF cfg bs n) (bs n)).2

/-- The `SpeechState` emitted for frame `n` of the sequence `bs`,
starting from a freshly reset detector. -/
def outAtF (cfg : VADConfig) (bs : ℕ → Bool) (n : ℕ) : SpeechState :=
  (updateState cfg (vadAtF cfg bs n) (bs n)).1

/-- The invariant of claim C10: the two hysteresis counters are never
simultaneously positive, and both are non-negative. -/
def vadInv (s : VADState) : Prop :=
  (s.speechFrameCount = 0 ∨ s.silenceFrameCount = 0) ∧
    0 ≤ s.speechFrameCount ∧ 0 ≤ s.silenceFrameCount

instance : DecidablePred vadInv := fun s => by
  unfold vadInv; infer_instance

/-- Whether an `Except` value is a success. -/
def exceptIsOk : Except String α → Bool
  | Except.ok _ => true
  | Except.error _ => false

/-! ## Utterance recorder (audio/recorder.py, `record_utterance`) -/

/-- Python `int(q)` on a rational: truncation toward zero. -/
def pyInt (q : ℚ) : ℤ :=
  if q < 0 then -(⌊-q⌋) else ⌊q⌋

/-- `max_chunks = int(max_duration * self.sample_rate / chunk_samples)`
(recorder.py line 125; identically line 268 in `record_streaming`).
`range(n)` of a negative `n` is empty, hence `toNat`. -/
def maxChunksOf (maxDuration : ℚ) (sampleRate chunkSamples : ℕ) : ℕ :=
  (pyInt (maxDuration * sampleRate / chunkSamples)).toNat

/-- The last `n` elements of a list. -/
def lastN (n : ℕ) (l : List α) : List α :=
  l.drop (l.length - n)

/-- Python `l[-n:]`: for `n = 0` this is the whole list (`l[0:]`),
otherwise the last `n` elements. -/
def pyTakeLast (n : ℕ) (l : List α) : List α :=
  if n = 0 then l else lastN n l

/-- One blocking read from the microphone input stream: either a
discarded read (`overflowed` is true, recorder.py lines 142-144) or an
audio chunk together with the probability the backend model assigns to
it.  Carrying the probability alongside the samples keeps the
(stateful, out-of-scope) model a black box, as in the spec. -/
inductive MicEvent where
  | overflow
  | chunk (data : List ℚ) (prob : ℚ)
deriving DecidableEq, Repr

/-- The samples of a read (empty for an overflowed read). -/
def evData : MicEvent → List ℚ
  | MicEvent.overflow => []
  | MicEvent.chunk d _ => d

/-- The model probability of a read (0 for an overflowed read). -/
def evProb : MicEvent → ℚ
  | MicEvent.overflow => 0
  | MicEvent.chunk _ p => p

/-- Whether a read produced a chunk. -/
def evIsChunk : MicEvent → Bool
  | MicEvent.overflow => false
  | MicEvent.chunk _ _ => true

/-- Configuration of an `AudioRecorder` together with its VAD detector.
`preSpeechChunks` is `VAD_PRE_SPEECH_BUFFER_CHUNKS` and
`maxSilenceChunks` is `VAD_MAX_SILENCE_BUFFER_CHUNKS`; both are imported
by recorder.py from polyglott.constants but are not defined in the
source tree.  Modelled from the spec: the look-back ring buffer is "a
bounded FIFO of the last N silence frames, N fixed, oldest-dropped"
(e.g. 10 chunks), kept here as parameters. -/
structure RecConfig where
  sampleRate : ℕ
  chunkSamples : ℕ
  preSpeechChunks : ℕ
  maxSilenceChunks : ℕ
  threshold : ℚ
  expectedSamples : ℕ
  pads : VADConfig
deriving DecidableEq, Repr

/-- The detector configuration of the recorder's VAD instance. -/
def RecConfig.det (cfg : RecConfig) : DetectorConfig :=
  ⟨cfg.threshold, cfg.expectedSamples, cfg.pads⟩

/-- The local state of the `record_utterance` loop
(recorder.py lines 119-181): `audio_buffer`, `speech_buffer`,
`speech_detected`, `speech_started`, the VAD detector state, plus
instrumentation: the number of loop iterations entered and the number
of `on_speech_start` / `on_speech_end` callback invocations. -/
structure RecState where
  audioBuf : List (List ℚ)
  speechBuf : List (List ℚ)
  speechDetected : Bool
  speechStarted : Bool
  vad : VADState
  iters : ℕ
  startCalls : ℕ
  endCalls : ℕ
deriving DecidableEq, Repr

/-- Loop state at entry: empty buffers and a freshly reset detector
(`self.vad.reset()`, recorder.py line 117). -/
def recInit : RecState := ⟨[], [], false, false, vadReset, 0, 0, 0⟩

/-- The body of one `record_utterance` loop iteration on event `e`
(recorder.py lines 141-180), after the stop-event check.  Returns the
new state and whether the loop `break`s, or an error when
`process_chunk` raises on a wrong-length chunk. -/
def recStep (cfg : RecConfig) (st : RecState) (e : MicEvent) :
    Except String (RecState × Bool) :=
  match e with
  | MicEvent.overflow => Except.ok (st, false)
  | MicEvent.chunk data prob =>
    match processChunk (fun _ => prob) cfg.det st.vad data with
    | (Except.error msg, _) => Except.error msg
    | (Except.ok res, vad') =>
      match res.state with
      | SpeechState.speech_start =>
        Except.ok ({ st with
          speechDetected := true
          speechStarted := true
          startCalls := st.startCalls + 1
          speechBuf := st.speechBuf ++ pyTakeLast cfg.preSpeechChunks st.audioBuf
                        ++ [data]
          vad := vad' }, false)
      | SpeechState.speaking =>
        if st.speechStarted then
          Except.ok ({ st with speechBuf := st.speechBuf ++ [data], vad := vad' }, false)
        else
          Except.ok ({ st with vad := vad' }, false)
      | SpeechState.speech_end =>
        if st.speechStarted then
          Except.ok ({ st with
            speechBuf := st.speechBuf ++ [data]
            endCalls := st.endCalls + 1
            vad := vad' }, true)
        else
          Except.ok ({ st with vad := vad' }, false)
      | SpeechState.silence =>
        let ab := st.audioBuf ++ [data]
        let ab := if cfg.maxSilenceChunks < ab.length then ab.drop 1 else ab
        Except.ok ({ st with audioBuf := ab, vad := vad' }, false)

/-- The `for _ in range(max_chunks)` loop of `record_utterance`
(recorder.py lines 137-180).  `events i` is the `i`-th blocking stream
read, `stop i` the `_stop_event` flag observed at the start of
iteration `i`.  The fuel is the remaining number of allowed iterations. -/
def recLoop (cfg : RecConfig) (events : ℕ → MicEvent) (stop : ℕ → Bool) :
    ℕ → ℕ → RecState → Except String RecState
  | 0, _, st => Except.ok st
  | n + 1, i, st =>
    let st := { st with iters := st.iters + 1 }
    if stop i then Except.ok st
    else
      match recStep cfg st (events i) with
      | Except.error msg => Except.error msg
      | Except.ok (st', brk) =>
        if brk then Except.ok st' else recLoop cfg events stop n (i + 1) st'

/-- `RecordingResult` dataclass (recorder.py lines 30-44), extended with
the loop instrumentation of `RecState` (`speechObserved` mirrors the
local `speech_detected`). -/
structure RecordingResult where
  audio : List ℚ
  sampleRate : ℕ
  durationSeconds : ℚ
  wasSpeechDetected : Bool
  speechObserved : Bool
  iters : ℕ
  startCalls : ℕ
  endCalls : ℕ
deriving DecidableEq, Repr

/-- `record_utterance(max_duration, silence_timeout, min_duration, ...)`
(recorder.py lines 93-201): run the loop, then combine the speech
buffer (or the 100 ms zero placeholder `np.zeros(int(sample_rate*0.1))`)
and apply the minimum-duration policy
`valid_speech = speech_detected and duration >= min_duration`. -/
def recordUtterance (cfg : RecConfig) (events : ℕ → MicEvent) (stop : ℕ → Bool)
    (maxDuration minDuration : ℚ) : Except String RecordingResult :=
  (recLoop cfg events stop (maxChunksOf maxDuration cfg.sampleRate cfg.chunkSamples)
      0 recInit).map fun st =>
    let audio : List ℚ :=
      if st.speechBuf.isEmpty then List.replicate (cfg.sampleRate / 10) 0
      else st.speechBuf.flatten
    let duration : ℚ := (audio.length : ℚ) / cfg.sampleRate
    { audio := audio
      sampleRate := cfg.sampleRate
      durationSeconds := duration
      wasSpeechDetected := st.speechDetected && decide (minDuration ≤ duration)
      speechObserved := st.speechDetected
      iters := st.iters
      startCalls := st.startCalls
      endCalls := st.endCalls }

/-- The chunks of events `a, a+1, ..., a+len-1`. -/
def framesOf (events : ℕ → MicEvent) (a len : ℕ) : List (List ℚ) :=
  (List.range' a len).map (fun i => evData (events i))

/-- The frame-classification sequence the recorder's detector sees:
frame `i` is speech iff `threshold ≤ probability`. -/
def recBools (cfg : RecConfig) (events : ℕ → MicEvent) (i : ℕ) : Bool :=
  cfg.threshold ≤ evProb (events i)

/-! ## Interruptible player (audio/player.py, `play_interruptible`) -/

/-- One attempted microphone read inside the duplex loop
(player.py lines 195-214).  `fail` covers an overflowed read, an empty
read, and an exception raised by the blocking read itself (all are
swallowed by the per-block handler and leave `chunks_processed`
untouched); `ok p` is a successfully read chunk whose model probability
is `p`.  (A detector exception after the `chunks_processed` increment
is also swallowed by the same handler; it is not modelled, and no claim
depends on it.) -/
inductive MicRead where
  | fail
  | ok (prob : ℚ)
deriving DecidableEq, Repr

/-- Whether a read was successfully processed (counts toward
`chunks_processed`). -/
def readIsOk : MicRead → Bool
  | MicRead.fail => false
  | MicRead.ok _ => true

/-- The number of successfully processed reads among `mic 0 .. mic (r-1)`. -/
def okCount (mic : ℕ → MicRead) (r : ℕ) : ℕ :=
  ((List.range r).filter (fun i => readIsOk (mic i))).length

/-- Parameters of one `play_interruptible` call with a detector
supplied: the prepared audio length in samples, the output block size
`output_chunk_size = int(sample_rate * 0.032)` (player.py line 177),
the barge-in threshold `interrupt_threshold`, and the barge-in
detector's own threshold and hysteresis pads. -/
structure PlayConfig where
  audioLen : ℕ
  outChunk : ℕ
  interruptThreshold : ℚ
  vadThreshold : ℚ
  pads : VADConfig
deriving DecidableEq, Repr

/-- `warmup_chunks = 5` (player.py line 179), a hard-coded constant. -/
def warmupChunks : ℕ := 5

/-- The loop-local state of the duplex playback loop
(player.py lines 176-214): `audio_pos`, `chunks_processed`,
`_was_interrupted`, the barge-in detector state, plus instrumentation:
the number of output blocks written, the number of `on_interrupt`
invocations, and the `chunks_processed` ordinal of every chunk that was
passed to speech-probability scoring. -/
structure PlayState where
  pos : ℕ
  processed : ℕ
  interrupted : Bool
  vad : VADState
  writeCount : ℕ
  onInterruptCalls : ℕ
  scoredOrdinals : List ℕ
deriving DecidableEq, Repr

/-- Duplex loop state at entry; the detector has just been reset
(`vad_detector.reset()`, player.py line 175). -/
def playInit : PlayState := ⟨0, 0, false, vadReset, 0, 0, []⟩

/-- Result of running the duplex `while` loop: either the loop exited
(completion, stop, or barge-in `break`) or an exception escaped the
`with` block and propagates to the outer handler. -/
inductive PlayOutcome where
  | finished (st : PlayState)
  | raised (st : PlayState)
deriving DecidableEq, Repr

/-- The loop state carried by either outcome. -/
def outcomeState : PlayOutcome → PlayState
  | PlayOutcome.finished st => st
  | PlayOutcome.raised st => st

/-- The duplex playback loop `while audio_pos < len(audio)`
(player.py lines 183-214).  Iteration `i` checks the stop flag, writes
one output block (`wfail i` means that write raises, which escapes the
loop), advances `audio_pos` by at most one output chunk, then consumes
the mic read `mic i`; on a successful read past the warm-up window the
chunk is scored and barge-in checked with
`speech_probability > interrupt_threshold`. -/
def playLoop (pc : PlayConfig) (mic : ℕ → MicRead) (stop wfail : ℕ → Bool) :
    ℕ → ℕ → PlayState → PlayOutcome
  | 0, _, st => PlayOutcome.finished st
  | n + 1, i, st =>
    if st.pos < pc.audioLen then
      if stop i then PlayOutcome.finished { st with interrupted := true }
      else if wfail i then PlayOutcome.raised st
      else
        match mic i with
        | MicRead.fail =>
          playLoop pc mic stop wfail n (i + 1)
            { st with
              pos := min (st.pos + pc.outChunk) pc.audioLen
              writeCount := st.writeCount + 1 }
        | MicRead.ok p =>
          if st.processed + 1 ≤ warmupChunks then
            playLoop pc mic stop wfail n (i + 1)
              { st with
                pos := min (st.pos + pc.outChunk) pc.audioLen
                writeCount := st.writeCount + 1
                processed := st.processed + 1 }
          else if pc.interruptThreshold < p then
            PlayOutcome.finished
              { st with
                pos := min (st.pos + pc.outChunk) pc.audioLen
                writeCount := st.writeCount + 1
                processed := st.processed + 1
                scoredOrdinals := st.scoredOrdinals ++ [st.processed + 1]
                vad := (updateState pc.pads st.vad (decide (pc.vadThreshold ≤ p))).2
                interrupted := true
                onInterruptCalls := st.onInterruptCalls + 1 }
          else
            playLoop pc mic stop wfail n (i + 1)
              { st with
                pos := min (st.pos + pc.outChunk) pc.audioLen
                writeCount := st.writeCount + 1
                processed := st.processed + 1
                scoredOrdinals := st.scoredOrdinals ++ [st.processed + 1]
                vad := (updateState pc.pads st.vad (decide (pc.vadThreshold ≤ p))).2 }
    else
      PlayOutcome.finished st

/-- Observable outcome of a `play_interruptible` call: the return value
`completed`, the `_was_interrupted` flag, the instrumentation counters
of the duplex loop, whether the degraded blocking-playback fallback ran
(player.py lines 220-224), and how many samples that fallback played. -/
structure PlayerResult where
  completed : Bool
  interrupted : Bool
  onInterruptCalls : ℕ
  writeCount : ℕ
  scoredOrdinals : List ℕ
  usedFallback : Bool
  fallbackSamples : ℕ
deriving DecidableEq, Repr

/-- `play_interruptible` with a detector supplied
(player.py lines 161-229): run the duplex loop; if an exception escapes
it, fall back to `_play_blocking` of the full prepared buffer and
return `True`; otherwise return `not self._was_interrupted`. -/
def playInterruptible (pc : PlayConfig) (mic : ℕ → MicRead)
    (stop wfail : ℕ → Bool) : PlayerResult :=
  match playLoop pc mic stop wfail (pc.audioLen + 1) 0 playInit with
  | PlayOutcome.raised st =>
    { completed := true
      interrupted := st.interrupted
      onInterruptCalls := st.onInterruptCalls
      writeCount := st.writeCount
      scoredOrdinals := st.scoredOrdinals
      usedFallback := true
      fallbackSamples := pc.audioLen }
  | PlayOutcome.finished st =>
    { completed := !st.interrupted
      interrupted := st.interrupted
      onInterruptCalls := st.onInterruptCalls
      writeCount := st.writeCount
      scoredOrdinals := st.scoredOrdinals
      usedFallback := false
      fallbackSamples := 0 }

/-! ## Tiered follow-up scheduler (audio/pipeline.py,
`process_turn_with_followup`) -/

/-- `tier_timeouts = [FOLLOWUP_TIER1_TIMEOUT, FOLLOWUP_TIER2_TIMEOUT,
FOLLOWUP_TIER3_TIMEOUT]` (pipeline.py lines 286-290, constants.py
lines 41-43). -/
def tierTimeouts : List ℚ := [10, 20, 30]

/-- Python list indexing `l[i]` for a non-negative index:
`IndexError` when out of bounds. -/
def pyListGet (l : List α) (i : ℕ) : Except String α :=
  if h : i < l.length then Except.ok l[i] else Except.error "IndexError"

/-- The listening timeout computed at the top of each scheduler loop
iteration (pipeline.py lines 295-302): the tier-1 timeout (or a flat
30 s without follow-ups) at tier 0, otherwise
`tier_timeouts[min(current_tier, len(tier_timeouts)-1)] -
tier_timeouts[current_tier-1]`. -/
def followupTimeout (enableFollowups : Bool) (currentTier : ℕ) :
    Except String ℚ :=
  if currentTier = 0 then
    Except.ok (if enableFollowups then 10 else 30)
  else do
    let prev ← pyListGet tierTimeouts (currentTier - 1)
    let curr ← pyListGet tierTimeouts (min currentTier (tierTimeouts.length - 1))
    return curr - prev

/-- `native_lang = self.native_language.lower()[:2]`
(pipeline.py line 365). -/
def natCode (nativeLanguage : String) : String :=
  (nativeLanguage.toLower).take 2

/-- Oracles for the out-of-scope collaborators of one
`process_turn_with_followup` call, keyed by the loop tier: whether the
recording at tier `i` detected speech, its transcription, the tutor
reply, and whether the main-turn playback was interrupted.  A follow-up
whose playback is interrupted only triggers `continue`
(pipeline.py lines 388-390), which re-enters the loop exactly like an
uninterrupted follow-up does, so that flag has no observable effect
here. -/
structure TurnOracles where
  speechAt : ℕ → Bool
  transcriptAt : ℕ → String
  tutorReply : String → String
  mainPlayInterrupted : ℕ → Bool

/-- A follow-up prompt that was synthesized and played: its tier and the
language passed to `synthesize` (pipeline.py lines 374-379). -/
structure Followup where
  tier : ℕ
  language : String
deriving DecidableEq, Repr

/-- Observable outcome of a `process_turn_with_followup` call: the
`user_text` / `tutor_text` of the returned `ConversationTurn`, its
`was_interrupted` flag, and the follow-up prompts played. -/
structure TurnOutcome where
  userText : String
  tutorText : String
  wasInterrupted : Bool
  followups : List Followup
deriving DecidableEq, Repr

/-- The `while current_tier <= max_followup_tier` loop of
`process_turn_with_followup` (pipeline.py lines 294-396).  Each
continuing path increments `current_tier` exactly once, so the tier is
also the iteration index.  The fuel only serves Lean's termination
check; `maxTier + 1 - ct` iterations always suffice. -/
def turnLoop (enableF : Bool) (maxTier : ℕ) (bargeIn : Bool)
    (orc : TurnOracles) (nativeLanguage : String) :
    ℕ → ℕ → String → String → List Followup → Except String TurnOutcome
  | 0, _, _, _, _ => Except.error "out of fuel"
  | n + 1, ct, userText, tutorText, fps =>
    if maxTier < ct then
      Except.ok ⟨userText, tutorText, false, fps⟩
    else do
      let _timeout ← followupTimeout enableF ct
      if orc.speechAt ct then
        let text := orc.transcriptAt ct
        if text.trim = "" then
          turnLoop enableF maxTier bargeIn orc nativeLanguage n (ct + 1)
            text tutorText fps
        else
          let reply := orc.tutorReply text
          let interrupted := bargeIn && orc.mainPlayInterrupted ct
          Except.ok ⟨text, reply, interrupted, fps⟩
      else
        let ct' := ct + 1
        if enableF && decide (ct' ≤ maxTier) then
          let fps' := fps ++ [⟨ct', natCode nativeLanguage⟩]
          turnLoop enableF maxTier bargeIn orc nativeLanguage n ct'
            userText tutorText fps'
        else
          turnLoop enableF maxTier bargeIn orc nativeLanguage n ct'
            userText tutorText fps

/-- `process_turn_with_followup(enable_followups, max_followup_tier)`
(pipeline.py lines 265-396), starting at tier 0 with an empty
`ConversationTurn`. -/
def processTurnWithFollowup (enableF : Bool) (maxTier : ℕ) (bargeIn : Bool)
    (orc : TurnOracles) (nativeLanguage : String) : Except String TurnOutcome :=
  turnLoop enableF maxTier bargeIn orc nativeLanguage (maxTier + 2) 0 "" "" []

/-! ## State machine lemmas -/

lemma updateState_counters_true (cfg : VADConfig) (s : VADState) :
    ((updateState cfg s true).2).speechFrameCount = s.speechFrameCount + 1 ∧
      ((updateState cfg s true).2).silenceFrameCount = 0 := by
  unfold updateState
  rcases hs : s.isSpeaking <;> simp [hs] <;> split_ifs <;> simp

lemma updateState_counters_false (cfg : VADConfig) (s : VADState) :
    ((updateState cfg s false).2).silenceFrameCount = s.silenceFrameCount + 1 ∧
      ((updateState cfg s false).2).speechFrameCount = 0 := by
  unfold updateState
  rcases hs : s.isSpeaking <;> simp [hs] <;> split_ifs <;> simp

lemma updateState_not_speaking (cfg : VADConfig) (s : VADState) (b : Bool)
    (h : s.isSpeaking = false) :
    ((updateState cfg s b).1 = SpeechState.speech_start ↔
        cfg.speechPadFrames ≤ ((updateState cfg s b).2).speechFrameCount) ∧
      ((updateState cfg s b).1 = SpeechState.speech_start ∨
        (updateState cfg s b).1 = SpeechState.silence) ∧
      (((updateState cfg s b).2).isSpeaking = true ↔
        (updateState cfg s b).1 = SpeechState.speech_start) := by
  unfold updateState
  cases b <;> simp [h] <;> split_ifs <;> simp_all

lemma updateState_speaking (cfg : VADConfig) (s : VADState) (b : Bool)
    (h : s.isSpeaking = true) :
    ((updateState cfg s b).1 = SpeechState.speech_end ↔
        cfg.silencePadFrames ≤ ((updateState cfg s b).2).silenceFrameCount) ∧
      ((updateState cfg s b).1 = SpeechState.speech_end ∨
        (updateState cfg s b).1 = SpeechState.speaking) ∧
      (((updateState cfg s b).2).isSpeaking = false ↔
        (updateState cfg s b).1 = SpeechState.speech_end) := by
  unfold updateState
  cases b <;> simp [h] <;> split_ifs <;> simp_all

lemma updateState_flip_iff (cfg : VADConfig) (s : VADState) (b : Bool) :
    ((updateState cfg s b).2).isSpeaking ≠ s.isSpeaking ↔
      ((updateState cfg s b).1 = SpeechState.speech_start ∨
        (updateState cfg s b).1 = SpeechState.speech_end) := by
  unfold updateState
  rcases hs : s.isSpeaking <;> cases b <;> simp [hs] <;> split_ifs <;> simp_all

lemma updateState_flip_up (cfg : VADConfig) (s : VADState) (b : Bool)
    (h : s.isSpeaking = false) (h' : ((updateState cfg s b).2).isSpeaking = true) :
    (updateState cfg s b).1 = SpeechState.speech_start := by
  have hflip := (updateState_flip_iff cfg s b).mp (by rw [h, h']; simp)
  rcases hflip with h1 | h1
  · exact h1
  · rcases (updateState_not_speaking cfg s b h).2.1 with h2 | h2 <;> simp_all

lemma updateState_flip_down (cfg : VADConfig) (s : VADState) (b : Bool)
    (h : s.isSpeaking = true) (h' : ((updateState cfg s b).2).isSpeaking = false) :
    (updateState cfg s b).1 = SpeechState.speech_end := by
  have hflip := (updateState_flip_iff cfg s b).mp (by rw [h, h']; simp)
  rcases hflip with h1 | h1
  · rcases (updateState_speaking cfg s b h).2.1 with h2 | h2 <;> simp_all
  · exact h1

lemma outAtF_start_before (cfg : VADConfig) (bs : ℕ → Bool) (n : ℕ)
    (h : outAtF cfg bs n = SpeechState.speech_start) :
    (vadAtF cfg bs n).isSpeaking = false := by
  rcases hs : (vadAtF cfg bs n).isSpeaking
  · rfl
  · rcases (updateState_speaking cfg (vadAtF cfg bs n) (bs n) hs).2.1 with h2 | h2 <;>
      simp_all [outAtF]

lemma outAtF_start_after (cfg : VADConfig) (bs : ℕ → Bool) (n : ℕ)
    (h : outAtF cfg bs n = SpeechState.speech_start) :
    (vadAtF cfg bs (n + 1)).isSpeaking = true := by
  have hb := outAtF_start_before cfg bs n h
  have := ((updateState_not_speaking cfg (vadAtF cfg bs n) (bs n) hb).2.2).mpr h
  simpa [vadAtF] using this

lemma outAtF_end_before (cfg : VADConfig) (bs : ℕ → Bool) (n : ℕ)
    (h : outAtF cfg bs n = SpeechState.speech_end) :
    (vadAtF cfg bs n).isSpeaking = true := by
  rcases hs : (vadAtF cfg bs n).isSpeaking
  · rcases (updateState_not_speaking cfg (vadAtF cfg bs n) (bs n) hs).2.1 with h2 | h2 <;>
      simp_all [outAtF]
  · rfl

lemma outAtF_end_after (cfg : VADConfig) (bs : ℕ → Bool) (n : ℕ)
    (h : outAtF cfg bs n = SpeechState.speech_end) :
    (vadAtF cfg bs (n + 1)).isSpeaking = false := by
  have hb := outAtF_end_before cfg bs n h
  have := ((updateState_speaking cfg (vadAtF cfg bs n) (bs n) hb).2.2).mpr h
  simpa [vadAtF] using this

lemma flip_point (f : ℕ → Bool) (v : Bool) :
    ∀ n a, f a = v → f (a + n) ≠ v →
      ∃ k, a ≤ k ∧ k < a + n ∧ f k = v ∧ f (k + 1) ≠ v := by
  intro n
  induction n with
  | zero => intro a h1 h2; simp_all
  | succ m ih =>
    intro a h1 h2
    by_cases h : f (a + m) = v
    · exact ⟨a + m, by omega, by omega, h, by rw [show a + m + 1 = a + (m + 1) by omega]; exact h2⟩
    · obtain ⟨k, hk1, hk2, hk3, hk4⟩ := ih a h1 h
      exact ⟨k, hk1, by omega, hk3, hk4⟩

lemma end_between_starts (cfg : VADConfig) (bs : ℕ → Bool) (i j : ℕ)
    (hij : i < j) (hi : outAtF cfg bs i = SpeechState.speech_start)
    (hj : outAtF cfg bs j = SpeechState.speech_start) :
    ∃ k, i < k ∧ k < j ∧ outAtF cfg bs k = SpeechState.speech_end := by
  have h1 : (vadAtF cfg bs (i + 1)).isSpeaking = true := outAtF_start_after cfg bs i hi
  have h2 : (vadAtF cfg bs j).isSpeaking = false := outAtF_start_before cfg bs j hj
  obtain ⟨k, hk1, hk2, hk3, hk4⟩ :=
    flip_point (fun n => (vadAtF cfg bs n).isSpeaking) true (j - (i + 1)) (i + 1) h1
      (by rw [show i + 1 + (j - (i + 1)) = j by omega]; simp [h2])
  refine ⟨k, by omega, by omega, ?_⟩
  have hk4' : (vadAtF cfg bs (k + 1)).isSpeaking = false := by
    revert hk4; rcases (vadAtF cfg bs (k + 1)).isSpeaking <;> simp
  exact updateState_flip_down cfg (vadAtF cfg bs k) (bs k) hk3 (by simpa [vadAtF] using hk4')

lemma start_between_ends (cfg : VADConfig) (bs : ℕ → Bool) (i j : ℕ)
    (hij : i < j) (hi : outAtF cfg bs i = SpeechState.speech_end)
    (hj : outAtF cfg bs j = SpeechState.speech_end) :
    ∃ k, i < k ∧ k < j ∧ outAtF cfg bs k = SpeechState.speech_start := by
  have h1 : (vadAtF cfg bs (i + 1)).isSpeaking = false := outAtF_end_after cfg bs i hi
  have h2 : (vadAtF cfg bs j).isSpeaking = true := outAtF_end_before cfg bs j hj
  obtain ⟨k, hk1, hk2, hk3, hk4⟩ :=
    flip_point (fun n => (vadAtF cfg bs n).isSpeaking) false (j - (i + 1)) (i + 1) h1
      (by rw [show i + 1 + (j - (i + 1)) = j by omega]; simp [h2])
  refine ⟨k, by omega, by omega, ?_⟩
  have hk4' : (vadAtF cfg bs (k + 1)).isSpeaking = true := by
    revert hk4; rcases (vadAtF cfg bs (k + 1)).isSpeaking <;> simp
  exact updateState_flip_up cfg (vadAtF cfg bs k) (bs k) hk3 (by simpa [vadAtF] using hk4')

lemma updateState_inv (cfg : VADConfig) (s : VADState) (b : Bool)
    (hs : vadInv s) : vadInv ((updateState cfg s b).2) := by
  obtain ⟨-, h1, h2⟩ := hs
  unfold updateState vadInv
  rcases hb : s.isSpeaking <;> cases b <;> simp [hb] <;> split_ifs <;> simp <;> omega

/-! ## Claim theorems: VAD state machine -/

/-- C1.  Per frame, a speech-probability at or above the threshold
increments `speech_frame_count` and zeroes `silence_frame_count` and a
frame below threshold does the reverse; while not speaking the emitted
state is `SPEECH_START` exactly when the updated speech counter reaches
`speech_pad_frames` (`SILENCE` otherwise) and `is_speaking` becomes true
exactly on that emission; while speaking the emitted state is
`SPEECH_END` exactly when the updated silence counter reaches
`silence_pad_frames` (`SPEAKING` otherwise) and `is_speaking` becomes
false exactly on that emission; `is_speaking` flips exactly at those two
emissions; and along any run from a reset state the two emissions
alternate, so each is emitted exactly once per episode. -/
theorem c1_state_machine_behavior :
    (∀ (model : List ℚ → ℚ) (cfg : DetectorConfig) (s : VADState) (chunk : List ℚ),
      chunk.length = cfg.expectedSamples →
      (cfg.threshold ≤ model chunk →
        ((processChunk model cfg s chunk).2).speechFrameCount = s.speechFrameCount + 1 ∧
          ((processChunk model cfg s chunk).2).silenceFrameCount = 0) ∧
      (¬ cfg.threshold ≤ model chunk →
        ((processChunk model cfg s chunk).2).silenceFrameCount = s.silenceFrameCount + 1 ∧
          ((processChunk model cfg s chunk).2).speechFrameCount = 0)) ∧
    (∀ (cfg : VADConfig) (s : VADState) (b : Bool), s.isSpeaking = false →
      ((updateState cfg s b).1 = SpeechState.speech_start ↔
        cfg.speechPadFrames ≤ ((updateState cfg s b).2).speechFrameCount) ∧
      ((updateState cfg s b).1 = SpeechState.speech_start ∨
        (updateState cfg s b).1 = SpeechState.silence) ∧
      (((updateState cfg s b).2).isSpeaking = true ↔
        (updateState cfg s b).1 = SpeechState.speech_start)) ∧
    (∀ (cfg : VADConfig) (s : VADState) (b : Bool), s.isSpeaking = true →
      ((updateState cfg s b).1 = SpeechState.speech_end ↔
        cfg.silencePadFrames ≤ ((updateState cfg s b).2).silenceFrameCount) ∧
      ((updateState cfg s b).1 = SpeechState.speech_end ∨
        (updateState cfg s b).1 = SpeechState.speaking) ∧
      (((updateState cfg s b).2).isSpeaking = false ↔
        (updateState cfg s b).1 = SpeechState.speech_end)) ∧
    (∀ (cfg : VADConfig) (s : VADState) (b : Bool),
      ((updateState cfg s b).2).isSpeaking ≠ s.isSpeaking ↔
        ((updateState cfg s b).1 = SpeechState.speech_start ∨
          (updateState cfg s b).1 = SpeechState.speech_end)) ∧
    (∀ (cfg : VADConfig) (bs : ℕ → Bool) (i j : ℕ), i < j →
      outAtF cfg bs i = SpeechState.speech_start →
      outAtF cfg bs j = SpeechState.speech_start →
      ∃ k, i < k ∧ k < j ∧ outAtF cfg bs k = SpeechState.speech_end) ∧
    (∀ (cfg : VADConfig) (bs : ℕ → Bool) (i j : ℕ), i < j →
      outAtF cfg bs i = SpeechState.speech_end →
      outAtF cfg bs j = SpeechState.speech_end →
      ∃ k, i < k ∧ k < j ∧ outAtF cfg bs k = SpeechState.speech_start) := by
  refine ⟨?_, updateState_not_speaking, updateState_speaking, updateState_flip_iff,
    end_between_starts, start_between_ends⟩
  intro model cfg s chunk hlen
  unfold processChunk
  simp only [hlen, ne_eq, not_true_eq_false, if_neg, ite_false]
  constructor
  · intro hp
    simpa [show (decide (cfg.threshold ≤ model chunk)) = true by simpa using hp] using
      updateState_counters_true cfg.pads s
  · intro hp
    simpa [show (decide (cfg.threshold ≤ model chunk)) = false by simpa using hp] using
      updateState_counters_false cfg.pads s

/-- Witness for C1 at concrete inputs: with pads 2/2 and the frame
pattern speech, speech, silence, silence repeating, the run emits
`SPEECH_START` at frames 1 and 5, and the theorem produces the
`SPEECH_END` strictly between them; the per-frame counter clause is also
instantiated at a concrete chunk. -/
theorem c1_state_machine_behavior_witness :
    (∃ k, 1 < k ∧ k < 5 ∧
      outAtF ⟨2, 2⟩ (fun i => decide (i % 4 < 2)) k = SpeechState.speech_end) ∧
    ((processChunk (fun _ => (1 : ℚ)) ⟨1/2, 1, ⟨2, 2⟩⟩ vadReset [0]).2).speechFrameCount =
      (vadReset).speechFrameCount + 1 := by
  constructor
  · exact c1_state_machine_behavior.2.2.2.2.1 ⟨2, 2⟩ (fun i => decide (i % 4 < 2)) 1 5
      (by decide) (by decide) (by decide)
  · exact ((c1_state_machine_behavior.1 (fun _ => (1 : ℚ)) ⟨1/2, 1, ⟨2, 2⟩⟩ vadReset [0]
      (by decide)).1 (by norm_num)).1

/-- C9.  `process_chunk` fails (raises `ValueError`) iff the frame
length differs from the backend's expected chunk length, and a failing
call leaves the detector state (both counters and `is_speaking`)
unchanged; the frame is never truncated or padded. -/
theorem c9_shape_error :
    ∀ (model : List ℚ → ℚ) (cfg : DetectorConfig) (s : VADState) (chunk : List ℚ),
      (exceptIsOk (processChunk model cfg s chunk).1 = false ↔
        chunk.length ≠ cfg.expectedSamples) ∧
      (chunk.length ≠ cfg.expectedSamples → (processChunk model cfg s chunk).2 = s) := by
  intro model cfg s chunk
  unfold processChunk
  split_ifs with h <;> simp [exceptIsOk, h]

/-- Witness for C9: a one-sample frame fed to a detector expecting two
samples fails and leaves the reset state untouched. -/
theorem c9_shape_error_witness :
    exceptIsOk (processChunk (fun _ => (0 : ℚ)) ⟨1/2, 2, ⟨3, 10⟩⟩ vadReset [0]).1 = false ∧
      (processChunk (fun _ => (0 : ℚ)) ⟨1/2, 2, ⟨3, 10⟩⟩ vadReset [0]).2 = vadReset := by
  have h := c9_shape_error (fun _ => (0 : ℚ)) ⟨1/2, 2, ⟨3, 10⟩⟩ vadReset [0]
  exact ⟨h.1.mpr (by decide), h.2 (by decide)⟩

/-- C10.  The hysteresis-counter invariant: at construction/reset, and
after every `_update_state` and every `process_chunk` call (including
failing ones), at least one of the two counters is zero and both are
non-negative. -/
theorem c10_counter_invariant :
    vadInv vadReset ∧
    (∀ (cfg : VADConfig) (s : VADState) (b : Bool),
      vadInv s → vadInv ((updateState cfg s b).2)) ∧
    (∀ (model : List ℚ → ℚ) (cfg : DetectorConfig) (s : VADState) (chunk : List ℚ),
      vadInv s → vadInv ((processChunk model cfg s chunk).2)) := by
  refine ⟨by decide, updateState_inv, ?_⟩
  intro model cfg s chunk hs
  unfold processChunk
  split_ifs with h
  · simpa using hs
  · exact updateState_inv _ _ _ hs

/-- Witness for C10 at concrete inputs. -/
theorem c10_counter_invariant_witness :
    vadInv ((updateState ⟨3, 10⟩ vadReset true).2) :=
  c10_counter_invariant.2.1 ⟨3, 10⟩ vadReset true (by decide)

/-! ## Claim theorems: follow-up tier timeouts (C5) -/

/-- C5 counterexample.  At tier `t = 3 = max_followup_tier` the loop
computes `tier_timeouts[min(3, 2)] - tier_timeouts[2] = 30 - 30 = 0`,
not the incremental delta `30 - 20 = 10` between the cumulative tier-3
and tier-2 thresholds that the claim requires. -/
theorem c5_tier_timeout_counterexample :
    followupTimeout true 3 = Except.ok 0 ∧ (0 : ℚ) ≠ 30 - 20 := by
  constructor
  · simp only [followupTimeout, pyListGet, tierTimeouts, bind, Except.bind, pure,
      Except.pure]
    norm_num
  · norm_num

/-- C5 amended.  At tiers 1 and 2 the listening timeout is the
incremental delta between consecutive cumulative thresholds
(`20 − 10` and `30 − 20`, i.e. 10 s each, never the raw cumulative
threshold); at tier 3 the index clamp `min(current_tier, 2)` makes both
table entries equal, so the timeout degenerates to `30 − 30 = 0`
seconds.  (Tier 0 uses the tier-1 baseline of 10 s.) -/
theorem c5_tier_timeouts_amended :
    followupTimeout true 0 = Except.ok 10 ∧
    followupTimeout true 1 = Except.ok (20 - 10) ∧
    followupTimeout true 2 = Except.ok (30 - 20) ∧
    followupTimeout true 3 = Except.ok (30 - 30) ∧
    (∀ t, 1 ≤ t → t ≤ 2 →
      ∃ q, followupTimeout true t = Except.ok q ∧ q ≠ 0 ∧
        pyListGet tierTimeouts t = Except.ok (q + ((tierTimeouts.take t).getLast?.getD 0))) := by
  refine ⟨by simp [followupTimeout], ?_, ?_, ?_, ?_⟩
  · simp only [followupTimeout, pyListGet, tierTimeouts, bind, Except.bind, pure,
      Except.pure]
    norm_num
  · simp only [followupTimeout, pyListGet, tierTimeouts, bind, Except.bind, pure,
      Except.pure]
    norm_num
  · simp only [followupTimeout, pyListGet, tierTimeouts, bind, Except.bind, pure,
      Except.pure]
    norm_num
  intro t h1 h2
  interval_cases t
  · refine ⟨10, ?_, by norm_num, ?_⟩
    · simp only [followupTimeout, pyListGet, tierTimeouts, bind, Except.bind, pure,
        Except.pure]
      norm_num
    · simp only [pyListGet, tierTimeouts]
      norm_num
  · refine ⟨10, ?_, by norm_num, ?_⟩
    · simp only [followupTimeout, pyListGet, tierTimeouts, bind, Except.bind, pure,
        Except.pure]
      norm_num
    · simp only [pyListGet, tierTimeouts]
      norm_num

/-- Witness for C5's amended statement at tier 2. -/
theorem c5_tier_timeouts_amended_witness :
    ∃ q, followupTimeout true 2 = Except.ok q ∧ q ≠ 0 ∧
      pyListGet tierTimeouts 2 =
        Except.ok (q + ((tierTimeouts.take 2).getLast?.getD 0)) :=
  c5_tier_timeouts_amended.2.2.2.2 2 (by decide) (by decide)

/-! ## Recorder loop lemmas -/

lemma recStep_iters (cfg : RecConfig) (st : RecState) (e : MicEvent)
    (st2 : RecState) (brk : Bool) (h : recStep cfg st e = Except.ok (st2, brk)) :
    st2.iters = st.iters := by
  rcases e with _ | ⟨d, p⟩ <;> simp only [recStep] at h
  · cases h; rfl
  · rcases hpc : processChunk (fun _ => p) cfg.det st.vad d with ⟨er, vad2⟩
    rw [hpc] at h
    rcases er with msg | res
    · simp at h
    · obtain ⟨pp, bb, stt⟩ := res
      rcases stt
      · cases h; rfl
      · cases h; rfl
      · split_ifs at h <;> (cases h; rfl)
      · split_ifs at h <;> (cases h; rfl)

lemma recLoop_iters (cfg : RecConfig) (events : ℕ → MicEvent) (stop : ℕ → Bool) :
    ∀ (n i : ℕ) (st st' : RecState),
      recLoop cfg events stop n i st = Except.ok st' → st'.iters ≤ st.iters + n := by
  intro n
  induction n with
  | zero => intro i st st' h; simp [recLoop] at h; rw [← h]; omega
  | succ m ih =>
    intro i st st' h
    rw [recLoop] at h
    split_ifs at h with hstop
    · simp at h; rw [← h]; simp
    · rcases hstep : recStep cfg { st with iters := st.iters + 1 } (events i) with msg | ⟨st2, brk⟩
      · rw [hstep] at h; simp at h
      · rw [hstep] at h
        have hit : st2.iters = st.iters + 1 :=
          recStep_iters cfg _ (events i) st2 brk hstep
        rcases brk with _ | _
        · simp at h
          have := ih (i + 1) st2 st' h
          omega
        · simp at h; rw [← h]; omega

/-! ## Claim theorems: recorder iteration bound (C4) -/

lemma pyInt_le_ceil (q : ℚ) : pyInt q ≤ ⌈q⌉ := by
  unfold pyInt
  split_ifs with h
  · rw [Int.floor_neg]
    omega
  · exact Int.floor_le_ceil q

/-- C4 counterexample.  For the default configuration
`max_duration = 30.0`, `sample_rate = 16000`, `chunk_samples = 512` the
code computes `int(30 * 16000 / 512) = int(937.5) = 937` iterations,
whereas `ceil(30 * 16000 / 512) = 938`: the bound is not computed as a
ceiling. -/
theorem c4_ceiling_counterexample :
    maxChunksOf 30 16000 512 = 937 ∧
      (⌈((30 : ℚ) * 16000 / 512)⌉).toNat = 938 ∧ (937 : ℕ) ≠ 938 := by
  refine ⟨?_, ?_, by norm_num⟩
  · unfold maxChunksOf pyInt
    norm_num
    rfl
  · rw [show (⌈((30 : ℚ) * 16000 / 512)⌉ : ℤ) = 938 from by
      rw [Int.ceil_eq_iff]
      norm_num]
    rfl

/-- C4 amended.  The frame-read loop of `record_utterance` executes at
most `max_chunks` iterations, and `max_chunks` is bounded by
`ceil(max_duration * sample_rate / chunk_size)` — but it is computed by
`int()` truncation (floor for non-negative values), which is strictly
below the ceiling whenever the quotient is not an integer. -/
theorem c4_iteration_bound :
    (∀ (cfg : RecConfig) (events : ℕ → MicEvent) (stop : ℕ → Bool)
        (maxD minD : ℚ) (r : RecordingResult),
      recordUtterance cfg events stop maxD minD = Except.ok r →
      r.iters ≤ maxChunksOf maxD cfg.sampleRate cfg.chunkSamples) ∧
    (∀ (maxD : ℚ) (sr cs : ℕ),
      maxChunksOf maxD sr cs ≤ (⌈maxD * sr / cs⌉).toNat) := by
  constructor
  · intro cfg events stop maxD minD r h
    unfold recordUtterance at h
    rcases hrl : recLoop cfg events stop
        (maxChunksOf maxD cfg.sampleRate cfg.chunkSamples) 0 recInit with msg | st
    · rw [hrl] at h; simp [Except.map] at h
    · rw [hrl] at h
      simp [Except.map] at h
      have hb := recLoop_iters cfg events stop _ 0 recInit st hrl
      rw [← h]
      simpa [recInit] using hb
  · intro maxD sr cs
    have := pyInt_le_ceil (maxD * sr / cs)
    unfold maxChunksOf
    omega

/-- Witness for C4: a zero-duration recording over an all-overflow
stream returns successfully within the computed bound. -/
theorem c4_iteration_bound_witness :
    ∃ r, recordUtterance ⟨16, 8, 2, 3, 1, 8, ⟨3, 10⟩⟩ (fun _ => MicEvent.overflow)
        (fun _ => false) 0 0 = Except.ok r ∧ r.iters ≤ maxChunksOf 0 16 8 := by
  have hrun : ∃ r, recordUtterance ⟨16, 8, 2, 3, 1, 8, ⟨3, 10⟩⟩ (fun _ => MicEvent.overflow)
      (fun _ => false) 0 0 = Except.ok r := by
    unfold recordUtterance
    dsimp only
    rw [show maxChunksOf 0 16 8 = 0 by norm_num [maxChunksOf, pyInt]]
    exact ⟨_, rfl⟩
  obtain ⟨r, h⟩ := hrun
  exact ⟨r, h, c4_iteration_bound.1 ⟨16, 8, 2, 3, 1, 8, ⟨3, 10⟩⟩
    (fun _ => MicEvent.overflow) (fun _ => false) 0 0 r h⟩

/-! ## Claim theorems: duplex playback fallback (C8) -/

/-- C8.  If an exception escapes the duplex playback loop (raised
outside the per-block mic-read handler, e.g. by an output-stream
write), `play_interruptible` falls back to plain blocking playback of
the full prepared buffer and returns `True` (completed) instead of
propagating the exception. -/
theorem c8_duplex_fallback :
    ∀ (pc : PlayConfig) (mic : ℕ → MicRead) (stop wfail : ℕ → Bool) (st : PlayState),
      playLoop pc mic stop wfail (pc.audioLen + 1) 0 playInit = PlayOutcome.raised st →
      playInterruptible pc mic stop wfail =
        { completed := true
          interrupted := st.interrupted
          onInterruptCalls := st.onInterruptCalls
          writeCount := st.writeCount
          scoredOrdinals := st.scoredOrdinals
          usedFallback := true
          fallbackSamples := pc.audioLen } := by
  intro pc mic stop wfail st h
  unfold playInterruptible
  rw [h]

/-- Witness for C8: a one-sample buffer whose first output write raises
is replayed in full by the blocking fallback and reported completed. -/
theorem c8_duplex_fallback_witness :
    playInterruptible ⟨1, 1, 0, 0, ⟨3, 10⟩⟩ (fun _ => MicRead.fail) (fun _ => false)
        (fun _ => true) = ⟨true, false, 0, 0, [], true, 1⟩ :=
  c8_duplex_fallback ⟨1, 1, 0, 0, ⟨3, 10⟩⟩ (fun _ => MicRead.fail) (fun _ => false)
    (fun _ => true) playInit (by decide)

/-! ## Claim theorems: tiered follow-up scheduler (C7) -/

/-- C7.  With follow-ups enabled (and a valid `max_followup_tier` of
1-3) and no speech detected at any tier, exactly `max_followup_tier`
follow-up prompts are synthesized and played, each with the user's
native-language code passed to the synthesizer, at tiers
`1 .. max_followup_tier`, and the call returns an empty turn (empty
`user_text` and `tutor_text`) without raising. -/
theorem c7_followup_schedule :
    ∀ (orc : TurnOracles) (nativeLanguage : String) (bargeIn : Bool) (maxTier : ℕ),
      1 ≤ maxTier → maxTier ≤ 3 →
      (∀ i, orc.speechAt i = false) →
      ∃ t, processTurnWithFollowup true maxTier bargeIn orc nativeLanguage =
          Except.ok t ∧
        t.userText = "" ∧ t.tutorText = "" ∧ t.wasInterrupted = false ∧
        t.followups.length = maxTier ∧
        (∀ f ∈ t.followups, f.language = natCode nativeLanguage) ∧
        t.followups.map Followup.tier = List.range' 1 maxTier := by
  intro orc nl bargeIn maxTier h1 h2 hs
  interval_cases maxTier
  · refine ⟨⟨"", "", false, [⟨1, natCode nl⟩]⟩, ?_, rfl, rfl, rfl, by simp, by simp,
      by simp [List.range']⟩
    simp [processTurnWithFollowup, turnLoop, followupTimeout, pyListGet, tierTimeouts,
      bind, Except.bind, pure, Except.pure, hs]
  · refine ⟨⟨"", "", false, [⟨1, natCode nl⟩, ⟨2, natCode nl⟩]⟩, ?_, rfl, rfl, rfl,
      by simp, by simp, by simp [List.range']⟩
    simp [processTurnWithFollowup, turnLoop, followupTimeout, pyListGet, tierTimeouts,
      bind, Except.bind, pure, Except.pure, hs]
  · refine ⟨⟨"", "", false, [⟨1, natCode nl⟩, ⟨2, natCode nl⟩, ⟨3, natCode nl⟩]⟩, ?_,
      rfl, rfl, rfl, by simp, by simp, by simp [List.range']⟩
    simp [processTurnWithFollowup, turnLoop, followupTimeout, pyListGet, tierTimeouts,
      bind, Except.bind, pure, Except.pure, hs]

/-- Witness for C7: with `max_followup_tier = 3`, an all-silent user
and native language "English", exactly three follow-ups are played at
tiers 1, 2, 3 with language code "en". -/
theorem c7_followup_schedule_witness :
    ∃ t, processTurnWithFollowup true 3 true
        ⟨fun _ => false, fun _ => "", fun s => s, fun _ => false⟩ "English" =
        Except.ok t ∧
      t.userText = "" ∧ t.tutorText = "" ∧ t.wasInterrupted = false ∧
      t.followups.length = 3 ∧
      (∀ f ∈ t.followups, f.language = natCode "English") ∧
      t.followups.map Followup.tier = List.range' 1 3 :=
  c7_followup_schedule ⟨fun _ => false, fun _ => "", fun s => s, fun _ => false⟩
    "English" true 3 (by decide) (by decide) (fun _ => rfl)

/-! ## Duplex-player loop lemmas -/

lemma okCount_zero (mic : ℕ → MicRead) : okCount mic 0 = 0 := rfl

lemma okCount_succ (mic : ℕ → MicRead) (k : ℕ) :
    okCount mic (k + 1) =
      okCount mic k + if readIsOk (mic k) then 1 else 0 := by
  unfold okCount
  rw [List.range_succ, List.filter_append]
  simp only [List.length_append]
  split_ifs with h <;> simp [h]

lemma playLoop_step_done (pc : PlayConfig) (mic : ℕ → MicRead) (stop wfail : ℕ → Bool)
    (n i : ℕ) (st : PlayState) (h : ¬ st.pos < pc.audioLen) :
    playLoop pc mic stop wfail (n + 1) i st = PlayOutcome.finished st := by
  rw [playLoop]; simp [h]

lemma playLoop_step_stop (pc : PlayConfig) (mic : ℕ → MicRead) (stop wfail : ℕ → Bool)
    (n i : ℕ) (st : PlayState) (h : st.pos < pc.audioLen) (h2 : stop i = true) :
    playLoop pc mic stop wfail (n + 1) i st =
      PlayOutcome.finished { st with interrupted := true } := by
  rw [playLoop]; simp [h, h2]

lemma playLoop_step_raised (pc : PlayConfig) (mic : ℕ → MicRead) (stop wfail : ℕ → Bool)
    (n i : ℕ) (st : PlayState) (h : st.pos < pc.audioLen) (h2 : stop i = false)
    (h3 : wfail i = true) :
    playLoop pc mic stop wfail (n + 1) i st = PlayOutcome.raised st := by
  rw [playLoop]; simp [h, h2, h3]

lemma playLoop_step_fail (pc : PlayConfig) (mic : ℕ → MicRead) (stop wfail : ℕ → Bool)
    (n i : ℕ) (st : PlayState) (h : st.pos < pc.audioLen) (h2 : stop i = false)
    (h3 : wfail i = false) (h4 : mic i = MicRead.fail) :
    playLoop pc mic stop wfail (n + 1) i st =
      playLoop pc mic stop wfail n (i + 1)
        { st with
          pos := min (st.pos + pc.outChunk) pc.audioLen
          writeCount := st.writeCount + 1 } := by
  rw [playLoop]; simp [h, h2, h3, h4]

lemma playLoop_step_warm (pc : PlayConfig) (mic : ℕ → MicRead) (stop wfail : ℕ → Bool)
    (n i : ℕ) (st : PlayState) (p : ℚ) (h : st.pos < pc.audioLen) (h2 : stop i = false)
    (h3 : wfail i = false) (h4 : mic i = MicRead.ok p)
    (h5 : st.processed + 1 ≤ warmupChunks) :
    playLoop pc mic stop wfail (n + 1) i st =
      playLoop pc mic stop wfail n (i + 1)
        { st with
          pos := min (st.pos + pc.outChunk) pc.audioLen
          writeCount := st.writeCount + 1
          processed := st.processed + 1 } := by
  rw [playLoop]; simp [h, h2, h3, h4, h5]

lemma playLoop_step_quiet (pc : PlayConfig) (mic : ℕ → MicRead) (stop wfail : ℕ → Bool)
    (n i : ℕ) (st : PlayState) (p : ℚ) (h : st.pos < pc.audioLen) (h2 : stop i = false)
    (h3 : wfail i = false) (h4 : mic i = MicRead.ok p)
    (h5 : ¬ st.processed + 1 ≤ warmupChunks) (h6 : ¬ pc.interruptThreshold < p) :
    playLoop pc mic stop wfail (n + 1) i st =
      playLoop pc mic stop wfail n (i + 1)
        { st with
          pos := min (st.pos + pc.outChunk) pc.audioLen
          writeCount := st.writeCount + 1
          processed := st.processed + 1
          scoredOrdinals := st.scoredOrdinals ++ [st.processed + 1]
          vad := (updateState pc.pads st.vad (decide (pc.vadThreshold ≤ p))).2 } := by
  rw [playLoop]; simp [h, h2, h3, h4, h5, h6]

lemma playLoop_step_interrupt (pc : PlayConfig) (mic : ℕ → MicRead)
    (stop wfail : ℕ → Bool) (n i : ℕ) (st : PlayState) (p : ℚ)
    (h : st.pos < pc.audioLen) (h2 : stop i = false) (h3 : wfail i = false)
    (h4 : mic i = MicRead.ok p) (h5 : ¬ st.processed + 1 ≤ warmupChunks)
    (h6 : pc.interruptThreshold < p) :
    playLoop pc mic stop wfail (n + 1) i st =
      PlayOutcome.finished
        { st with
          pos := min (st.pos + pc.outChunk) pc.audioLen
          writeCount := st.writeCount + 1
          processed := st.processed + 1
          scoredOrdinals := st.scoredOrdinals ++ [st.processed + 1]
          vad := (updateState pc.pads st.vad (decide (pc.vadThreshold ≤ p))).2
          interrupted := true
          onInterruptCalls := st.onInterruptCalls + 1 } := by
  rw [playLoop]; simp [h, h2, h3, h4, h5, h6]

lemma playLoop_scored (pc : PlayConfig) (mic : ℕ → MicRead) (stop wfail : ℕ → Bool) :
    ∀ (n i : ℕ) (st : PlayState),
      (∀ j ∈ st.scoredOrdinals, warmupChunks < j) →
      ∀ j ∈ (outcomeState (playLoop pc mic stop wfail n i st)).scoredOrdinals,
        warmupChunks < j := by
  intro n
  induction n with
  | zero => intro i st hinv; simpa [playLoop, outcomeState] using hinv
  | succ m ih =>
    intro i st hinv
    by_cases hpos : st.pos < pc.audioLen
    · rcases hstop : stop i with _ | _
      · rcases hfail : wfail i with _ | _
        · rcases hmk : mic i with _ | p
          · rw [playLoop_step_fail pc mic stop wfail m i st hpos hstop hfail hmk]
            exact ih (i + 1) _ hinv
          · by_cases hwu : st.processed + 1 ≤ warmupChunks
            · rw [playLoop_step_warm pc mic stop wfail m i st p hpos hstop hfail hmk hwu]
              exact ih (i + 1) _ hinv
            · by_cases hthr : pc.interruptThreshold < p
              · rw [playLoop_step_interrupt pc mic stop wfail m i st p hpos hstop hfail
                  hmk hwu hthr]
                intro j hj
                simp only [outcomeState, List.mem_append, List.mem_singleton] at hj
                rcases hj with hj | hj
                · exact hinv j hj
                · omega
              · rw [playLoop_step_quiet pc mic stop wfail m i st p hpos hstop hfail hmk
                  hwu hthr]
                refine ih (i + 1) _ ?_
                intro j hj
                simp only [List.mem_append, List.mem_singleton] at hj
                rcases hj with hj | hj
                · exact hinv j hj
                · omega
        · rw [playLoop_step_raised pc mic stop wfail m i st hpos hstop hfail]
          simpa [outcomeState] using hinv
      · rw [playLoop_step_stop pc mic stop wfail m i st hpos hstop]
        simpa [outcomeState] using hinv
    · rw [playLoop_step_done pc mic stop wfail m i st hpos]
      simpa [outcomeState] using hinv

lemma playLoop_interrupt (pc : PlayConfig) (mic : ℕ → MicRead) (stop wfail : ℕ → Bool)
    (r : ℕ) (p : ℚ)
    (hstop : ∀ i, stop i = false) (hw : ∀ i, wfail i = false)
    (hr : mic r = MicRead.ok p) (hp : pc.interruptThreshold < p)
    (hbefore : ∀ i, i < r → ∀ q, mic i = MicRead.ok q → q ≤ pc.interruptThreshold)
    (hwarm : warmupChunks ≤ okCount mic r)
    (hlen : r * pc.outChunk < pc.audioLen) :
    ∀ (n k : ℕ) (st : PlayState), k ≤ r → r + 1 ≤ k + n →
      st.pos = k * pc.outChunk → st.processed = okCount mic k →
      st.interrupted = false → st.onInterruptCalls = 0 → st.writeCount = k →
      ∃ stf, playLoop pc mic stop wfail n k st = PlayOutcome.finished stf ∧
        stf.interrupted = true ∧ stf.onInterruptCalls = 1 ∧ stf.writeCount = r + 1 := by
  intro n
  induction n with
  | zero => intro k st hk hn; omega
  | succ m ih =>
    intro k st hk hn hpos hproc hint hcalls hwc
    have hposlt : st.pos < pc.audioLen := by
      rw [hpos]
      calc k * pc.outChunk ≤ r * pc.outChunk := Nat.mul_le_mul_right _ hk
        _ < pc.audioLen := hlen
    rcases Nat.lt_or_ge k r with hklt | hkge
    · -- before the interrupting read: keep the invariant and recurse
      have hmin : min (st.pos + pc.outChunk) pc.audioLen = (k + 1) * pc.outChunk := by
        rw [hpos, ← Nat.succ_mul]
        exact Nat.min_eq_left (le_of_lt (lt_of_le_of_lt
          (Nat.mul_le_mul_right _ hklt) hlen))
      rcases hmk : mic k with _ | q
      · rw [playLoop_step_fail pc mic stop wfail m k st hposlt (hstop k) (hw k) hmk]
        refine ih (k + 1) _ (by omega) (by omega) ?_ ?_ hint hcalls ?_
        · simpa using hmin
        · simp [hproc, okCount_succ, hmk, readIsOk]
        · simpa using hwc
      · have hq : q ≤ pc.interruptThreshold := hbefore k hklt q hmk
        have hnotthr : ¬ pc.interruptThreshold < q := not_lt.mpr hq
        by_cases hwu : st.processed + 1 ≤ warmupChunks
        · rw [playLoop_step_warm pc mic stop wfail m k st q hposlt (hstop k) (hw k)
            hmk hwu]
          refine ih (k + 1) _ (by omega) (by omega) ?_ ?_ hint hcalls ?_
          · simpa using hmin
          · simp [hproc, okCount_succ, hmk, readIsOk]
          · simpa using hwc
        · rw [playLoop_step_quiet pc mic stop wfail m k st q hposlt (hstop k) (hw k)
            hmk hwu hnotthr]
          refine ih (k + 1) _ (by omega) (by omega) ?_ ?_ hint hcalls ?_
          · simpa using hmin
          · simp [hproc, okCount_succ, hmk, readIsOk]
          · simpa using hwc
    · -- k = r: this read interrupts
      have hkr : k = r := le_antisymm hk hkge
      subst hkr
      have hwu : ¬ (st.processed + 1 ≤ warmupChunks) := by
        rw [hproc]; omega
      rw [playLoop_step_interrupt pc mic stop wfail m k st p hposlt (hstop k) (hw k)
        hr hwu hp]
      exact ⟨_, rfl, rfl, by simp [hcalls], by simp [hwc]⟩

/-! ## Claim theorems: barge-in playback (C2) -/

/-- C2.  In every `play_interruptible` run the chunks passed to
speech-probability scoring are exactly those with `chunks_processed`
ordinal above the warm-up count 5 (so none of the first five processed
microphone chunks is ever scored); and if the first mic block whose
probability strictly exceeds `interrupt_threshold` is the `J`-th
processed block with `J > 5` (reached while audio remains), the call
sets the interrupted flag, invokes `on_interrupt` exactly once, writes
no output block after that iteration, and returns `False`. -/
theorem c2_barge_in :
    (∀ (pc : PlayConfig) (mic : ℕ → MicRead) (stop wfail : ℕ → Bool),
      ∀ j ∈ (playInterruptible pc mic stop wfail).scoredOrdinals, warmupChunks < j) ∧
    (∀ (pc : PlayConfig) (mic : ℕ → MicRead) (stop wfail : ℕ → Bool) (r : ℕ) (p : ℚ),
      0 < pc.outChunk →
      (∀ i, stop i = false) → (∀ i, wfail i = false) →
      mic r = MicRead.ok p → pc.interruptThreshold < p →
      (∀ i, i < r → ∀ q, mic i = MicRead.ok q → q ≤ pc.interruptThreshold) →
      warmupChunks ≤ okCount mic r →
      r * pc.outChunk < pc.audioLen →
      (playInterruptible pc mic stop wfail).completed = false ∧
      (playInterruptible pc mic stop wfail).interrupted = true ∧
      (playInterruptible pc mic stop wfail).onInterruptCalls = 1 ∧
      (playInterruptible pc mic stop wfail).writeCount = r + 1 ∧
      (playInterruptible pc mic stop wfail).usedFallback = false) := by
  constructor
  · intro pc mic stop wfail j hj
    have hout : (playInterruptible pc mic stop wfail).scoredOrdinals =
        (outcomeState (playLoop pc mic stop wfail (pc.audioLen + 1) 0 playInit)).scoredOrdinals := by
      unfold playInterruptible
      rcases playLoop pc mic stop wfail (pc.audioLen + 1) 0 playInit with st | st <;> rfl
    rw [hout] at hj
    exact playLoop_scored pc mic stop wfail (pc.audioLen + 1) 0 playInit
      (by intro j hj'; simp [playInit] at hj') j hj
  · intro pc mic stop wfail r p hc hstop hw hr hp hbefore hwarm hlen
    have hrle : r + 1 ≤ 0 + (pc.audioLen + 1) := by
      have h1 : r ≤ r * pc.outChunk := Nat.le_mul_of_pos_right r hc
      omega
    obtain ⟨stf, heq, hint, hcalls, hwc⟩ :=
      playLoop_interrupt pc mic stop wfail r p hstop hw hr hp hbefore hwarm hlen
        (pc.audioLen + 1) 0 playInit (by omega) hrle (by simp [playInit]) rfl rfl rfl rfl
    unfold playInterruptible
    rw [heq]
    simp [hint, hcalls, hwc]

/-- Witness for C2: the mic stream reports probabilities 0 on blocks
1-5 and probability 1 > 1/2 on block 6; playback of 20 samples in
1-sample blocks is interrupted at write 6 with one `on_interrupt`
call. -/
theorem c2_barge_in_witness :
    (playInterruptible ⟨20, 1, 0, 0, ⟨3, 10⟩⟩
        (fun i => if i = 5 then MicRead.ok 1 else MicRead.ok 0)
        (fun _ => false) (fun _ => false)).completed = false ∧
    (playInterruptible ⟨20, 1, 0, 0, ⟨3, 10⟩⟩
        (fun i => if i = 5 then MicRead.ok 1 else MicRead.ok 0)
        (fun _ => false) (fun _ => false)).interrupted = true ∧
    (playInterruptible ⟨20, 1, 0, 0, ⟨3, 10⟩⟩
        (fun i => if i = 5 then MicRead.ok 1 else MicRead.ok 0)
        (fun _ => false) (fun _ => false)).onInterruptCalls = 1 ∧
    (playInterruptible ⟨20, 1, 0, 0, ⟨3, 10⟩⟩
        (fun i => if i = 5 then MicRead.ok 1 else MicRead.ok 0)
        (fun _ => false) (fun _ => false)).writeCount = 6 ∧
    (playInterruptible ⟨20, 1, 0, 0, ⟨3, 10⟩⟩
        (fun i => if i = 5 then MicRead.ok 1 else MicRead.ok 0)
        (fun _ => false) (fun _ => false)).usedFallback = false :=
  c2_barge_in.2 ⟨20, 1, 0, 0, ⟨3, 10⟩⟩
    (fun i => if i = 5 then MicRead.ok 1 else MicRead.ok 0)
    (fun _ => false) (fun _ => false) 5 1
    (by decide) (fun _ => rfl) (fun _ => rfl) (by decide) (by decide)
    (by
      intro i hi q hq
      simp only [if_neg (by omega : ¬ i = 5)] at hq
      cases hq
      exact le_refl 0)
    (by decide) (by decide)

/-! ## Recorder loop step lemmas -/

lemma recStep_overflow (cfg : RecConfig) (st : RecState) :
    recStep cfg st MicEvent.overflow = Except.ok (st, false) := rfl

lemma recStep_chunk_silence (cfg : RecConfig) (st : RecState) (d : List ℚ) (p : ℚ)
    (v' : VADState) (hlen : d.length = cfg.expectedSamples)
    (hupd : updateState cfg.pads st.vad (decide (cfg.threshold ≤ p)) =
      (SpeechState.silence, v')) :
    recStep cfg st (MicEvent.chunk d p) = Except.ok
      ({ st with
          audioBuf := if cfg.maxSilenceChunks < (st.audioBuf ++ [d]).length then
            (st.audioBuf ++ [d]).drop 1 else st.audioBuf ++ [d]
          vad := v' }, false) := by
  unfold recStep processChunk RecConfig.det
  simp [hlen, hupd]

lemma recStep_chunk_start (cfg : RecConfig) (st : RecState) (d : List ℚ) (p : ℚ)
    (v' : VADState) (hlen : d.length = cfg.expectedSamples)
    (hupd : updateState cfg.pads st.vad (decide (cfg.threshold ≤ p)) =
      (SpeechState.speech_start, v')) :
    recStep cfg st (MicEvent.chunk d p) = Except.ok
      ({ st with
          speechDetected := true
          speechStarted := true
          startCalls := st.startCalls + 1
          speechBuf := st.speechBuf ++ pyTakeLast cfg.preSpeechChunks st.audioBuf ++ [d]
          vad := v' }, false) := by
  unfold recStep processChunk RecConfig.det
  simp [hlen, hupd]

lemma recStep_chunk_speaking (cfg : RecConfig) (st : RecState) (d : List ℚ) (p : ℚ)
    (v' : VADState) (hlen : d.length = cfg.expectedSamples)
    (hupd : updateState cfg.pads st.vad (decide (cfg.threshold ≤ p)) =
      (SpeechState.speaking, v'))
    (hst : st.speechStarted = true) :
    recStep cfg st (MicEvent.chunk d p) = Except.ok
      ({ st with speechBuf := st.speechBuf ++ [d], vad := v' }, false) := by
  unfold recStep processChunk RecConfig.det
  simp [hlen, hupd, hst]

lemma recStep_chunk_end (cfg : RecConfig) (st : RecState) (d : List ℚ) (p : ℚ)
    (v' : VADState) (hlen : d.length = cfg.expectedSamples)
    (hupd : updateState cfg.pads st.vad (decide (cfg.threshold ≤ p)) =
      (SpeechState.speech_end, v'))
    (hst : st.speechStarted = true) :
    recStep cfg st (MicEvent.chunk d p) = Except.ok
      ({ st with
          speechBuf := st.speechBuf ++ [d]
          endCalls := st.endCalls + 1
          vad := v' }, true) := by
  unfold recStep processChunk RecConfig.det
  simp [hlen, hupd, hst]

lemma recLoop_succ_stop (cfg : RecConfig) (events : ℕ → MicEvent) (stop : ℕ → Bool)
    (n i : ℕ) (st : RecState) (h1 : stop i = true) :
    recLoop cfg events stop (n + 1) i st =
      Except.ok { st with iters := st.iters + 1 } := by
  rw [recLoop]; simp [h1]

lemma recLoop_succ_cont (cfg : RecConfig) (events : ℕ → MicEvent) (stop : ℕ → Bool)
    (n i : ℕ) (st st2 : RecState) (h1 : stop i = false)
    (h2 : recStep cfg { st with iters := st.iters + 1 } (events i) =
      Except.ok (st2, false)) :
    recLoop cfg events stop (n + 1) i st = recLoop cfg events stop n (i + 1) st2 := by
  rw [recLoop]; simp [h1, h2]

lemma recLoop_succ_brk (cfg : RecConfig) (events : ℕ → MicEvent) (stop : ℕ → Bool)
    (n i : ℕ) (st st2 : RecState) (h1 : stop i = false)
    (h2 : recStep cfg { st with iters := st.iters + 1 } (events i) =
      Except.ok (st2, true)) :
    recLoop cfg events stop (n + 1) i st = Except.ok st2 := by
  rw [recLoop]; simp [h1, h2]

lemma updateState_silent (cfg : VADConfig) (s : VADState)
    (hpad : 1 ≤ cfg.speechPadFrames) (hs : s.isSpeaking = false) :
    updateState cfg s false =
      (SpeechState.silence, ⟨0, s.silenceFrameCount + 1, false⟩) := by
  unfold updateState
  simp [hs]
  omega

lemma recLoop_silent (cfg : RecConfig) (events : ℕ → MicEvent) (stop : ℕ → Bool)
    (hpad : 1 ≤ cfg.pads.speechPadFrames)
    (hev : ∀ i d p, events i = MicEvent.chunk d p →
      d.length = cfg.expectedSamples ∧ p < cfg.threshold) :
    ∀ (n i : ℕ) (st : RecState),
      st.vad.isSpeaking = false → st.vad.speechFrameCount = 0 →
      st.speechBuf = [] → st.speechDetected = false →
      ∃ st', recLoop cfg events stop n i st = Except.ok st' ∧
        st'.speechBuf = [] ∧ st'.speechDetected = false := by
  intro n
  induction n with
  | zero =>
    intro i st h1 h2 h3 h4
    exact ⟨st, rfl, h3, h4⟩
  | succ m ih =>
    intro i st h1 h2 h3 h4
    rcases hstop : stop i with _ | _
    · rcases hev' : events i with _ | ⟨d, p⟩
      · rw [recLoop_succ_cont cfg events stop m i st _ hstop
          (by rw [hev']; exact recStep_overflow cfg _)]
        exact ih (i + 1) _ h1 h2 h3 h4
      · obtain ⟨hlen, hp⟩ := hev i d p hev'
        have hb : decide (cfg.threshold ≤ p) = false := by
          simp [not_le.mpr hp]
        have hupd := updateState_silent cfg.pads
          ({ st with iters := st.iters + 1 } : RecState).vad hpad h1
        rw [recLoop_succ_cont cfg events stop m i st _ hstop
          (by rw [hev']; exact recStep_chunk_silence cfg _ d p _ hlen (by rw [hb]; exact hupd))]
        exact ih (i + 1) _ rfl rfl h3 h4
    · rw [recLoop_succ_stop cfg events stop m i st hstop]
      exact ⟨_, rfl, h3, h4⟩

/-! ## Claim theorems: all-silence recording (C6) -/

/-- C6.  On an input stream whose chunks all score below the detector
threshold, `record_utterance` returns successfully (never raises) with
`was_speech_detected = False` and the non-empty 100 ms zero placeholder
buffer, within the iteration budget; and in every successful call
`was_speech_detected` is true only if speech was observed and the
resulting duration is at least `min_duration`. -/
theorem c6_silence_recording :
    (∀ (cfg : RecConfig) (events : ℕ → MicEvent) (stop : ℕ → Bool) (maxD minD : ℚ),
      1 ≤ cfg.pads.speechPadFrames →
      10 ≤ cfg.sampleRate →
      (∀ i d p, events i = MicEvent.chunk d p →
        d.length = cfg.expectedSamples ∧ p < cfg.threshold) →
      ∃ r, recordUtterance cfg events stop maxD minD = Except.ok r ∧
        r.wasSpeechDetected = false ∧ r.speechObserved = false ∧
        r.audio = List.replicate (cfg.sampleRate / 10) 0 ∧ r.audio ≠ [] ∧
        r.iters ≤ maxChunksOf maxD cfg.sampleRate cfg.chunkSamples) ∧
    (∀ (cfg : RecConfig) (events : ℕ → MicEvent) (stop : ℕ → Bool) (maxD minD : ℚ)
        (r : RecordingResult),
      recordUtterance cfg events stop maxD minD = Except.ok r →
      r.wasSpeechDetected = true →
      r.speechObserved = true ∧ minD ≤ r.durationSeconds) := by
  constructor
  · intro cfg events stop maxD minD hpad hsr hev
    obtain ⟨st', hrl, hbuf, hdet⟩ := recLoop_silent cfg events stop hpad hev
      (maxChunksOf maxD cfg.sampleRate cfg.chunkSamples) 0 recInit rfl rfl rfl rfl
    have hiter := recLoop_iters cfg events stop _ 0 recInit st' hrl
    refine ⟨_, by rw [recordUtterance, hrl]; rfl, ?_, ?_, ?_, ?_, ?_⟩
    · simp [hdet]
    · simpa using hdet
    · simp [hbuf]
    · simp [hbuf, List.replicate_eq_nil_iff]
      omega
    · simpa [recInit] using hiter
  · intro cfg events stop maxD minD r hr hws
    rw [recordUtterance] at hr
    rcases hrl : recLoop cfg events stop
        (maxChunksOf maxD cfg.sampleRate cfg.chunkSamples) 0 recInit with msg | st
    · rw [hrl] at hr; simp [Except.map] at hr
    · rw [hrl] at hr
      simp [Except.map] at hr
      rw [← hr] at hws
      simp at hws
      rw [← hr]
      exact ⟨by simp [hws.1], by simpa using hws.2⟩

/-! ## Look-back buffer lemmas (C3) -/

lemma lastN_cap (m : ℕ) (l : List α) (x : α) :
    (if m < (lastN m l ++ [x]).length then (lastN m l ++ [x]).drop 1
      else lastN m l ++ [x]) = lastN m (l ++ [x]) := by
  unfold lastN
  by_cases h : l.length < m
  · rw [if_neg (by simp [List.length_drop]; omega)]
    have h0 : l.length - m = 0 := by omega
    have h1 : (l ++ [x]).length - m = 0 := by simp; omega
    rw [h0, h1]
    simp
  · push_neg at h
    rw [if_pos (by simp [List.length_drop]; omega)]
    rcases Nat.eq_zero_or_pos m with hm | hm
    · subst hm
      simp
    · rw [List.drop_append_of_le_length (by simp [List.length_drop]; omega),
        List.drop_drop,
        List.drop_append_of_le_length (by simp; omega)]
      congr 2
      simp
      omega

lemma pyTakeLast_lastN (pre maxSil : ℕ) (l : List α) (hpre : 1 ≤ pre)
    (hpm : pre ≤ maxSil) : pyTakeLast pre (lastN maxSil l) = lastN pre l := by
  unfold pyTakeLast lastN
  rw [if_neg (by omega), List.length_drop, List.drop_drop]
  congr 1
  omega

lemma framesOf_append_one (events : ℕ → MicEvent) (a n : ℕ) :
    framesOf events a n ++ [evData (events (a + n))] = framesOf events a (n + 1) := by
  unfold framesOf
  rw [List.range'_concat]
  simp

lemma framesOf_length (events : ℕ → MicEvent) (a n : ℕ) :
    (framesOf events a n).length = n := by
  simp [framesOf]

lemma lastN_framesOf (events : ℕ → MicEvent) (K pre : ℕ) (h : pre ≤ K) :
    lastN pre (framesOf events 0 K) = framesOf events (K - pre) pre := by
  unfold lastN framesOf
  rw [show ((List.range' 0 K).map fun i => evData (events i)).length = K by simp]
  have hsplit : List.range' 0 K =
      List.range' 0 (K - pre) ++ List.range' (K - pre) pre := by
    have h2 : pre + (K - pre) = K := by omega
    calc List.range' 0 K = List.range' 0 (pre + (K - pre)) := by rw [h2]
      _ = List.range' 0 (K - pre) ++ List.range' (0 + 1 * (K - pre)) pre :=
        (List.range'_append 0 (K - pre) pre 1).symm
      _ = List.range' 0 (K - pre) ++ List.range' (K - pre) pre := by
        congr 1
        simp
  rw [hsplit, List.map_append, List.drop_left' (by simp)]

/-! ## Recorder run lemmas for a single utterance episode (C3) -/

lemma recLoop_speech (cfg : RecConfig) (events : ℕ → MicEvent) (stop : ℕ → Bool)
    (K M : ℕ)
    (hstop : ∀ i, stop i = false)
    (hev : ∀ i, i ≤ K + M → evIsChunk (events i) = true ∧
      (evData (events i)).length = cfg.expectedSamples)
    (houtspk : ∀ i, K < i → i < K + M →
      outAtF cfg.pads (recBools cfg events) i = SpeechState.speaking)
    (houtend : outAtF cfg.pads (recBools cfg events) (K + M) = SpeechState.speech_end)
    (hKpre : cfg.preSpeechChunks ≤ K) :
    ∀ (n j : ℕ) (st : RecState), K < j → j ≤ K + M → K + M + 1 ≤ j + n →
      st.speechBuf = framesOf events (K - cfg.preSpeechChunks)
        (cfg.preSpeechChunks + (j - K)) →
      st.speechStarted = true → st.speechDetected = true →
      st.vad = vadAtF cfg.pads (recBools cfg events) j →
      st.iters = j → st.startCalls = 1 → st.endCalls = 0 →
      ∃ st', recLoop cfg events stop n j st = Except.ok st' ∧
        st'.speechBuf = framesOf events (K - cfg.preSpeechChunks)
          (cfg.preSpeechChunks + M + 1) ∧
        st'.iters = K + M + 1 ∧ st'.speechDetected = true ∧
        st'.startCalls = 1 ∧ st'.endCalls = 1 := by
  intro n
  induction n with
  | zero => intro j st h1 h2 h3; omega
  | succ m ih =>
    intro j st h1 h2 h3 hbuf hstarted hdet hvad hit hsc hec
    obtain ⟨hchunk, hlen⟩ := hev j (by omega)
    obtain ⟨d, p, hev'⟩ : ∃ d p, events j = MicEvent.chunk d p := by
      rcases hevj : events j with _ | ⟨d, p⟩
      · rw [hevj] at hchunk; simp [evIsChunk] at hchunk
      · exact ⟨d, p, rfl⟩
    have hdlen : d.length = cfg.expectedSamples := by
      rw [hev'] at hlen; simpa [evData] using hlen
    have hb : recBools cfg events j = decide (cfg.threshold ≤ p) := by
      unfold recBools; rw [hev']; rfl
    have hu : updateState cfg.pads (vadAtF cfg.pads (recBools cfg events) j)
        (recBools cfg events j) =
        (outAtF cfg.pads (recBools cfg events) j,
          vadAtF cfg.pads (recBools cfg events) (j + 1)) := rfl
    have hdata : evData (events j) = d := by rw [hev']; rfl
    rcases Nat.lt_or_ge j (K + M) with hjlt | hjge
    · rw [houtspk j h1 hjlt] at hu
      have hupd2 : updateState cfg.pads st.vad (decide (cfg.threshold ≤ p)) =
          (SpeechState.speaking, vadAtF cfg.pads (recBools cfg events) (j + 1)) := by
        rw [hvad, ← hb]; exact hu
      rw [recLoop_succ_cont cfg events stop m j st _ (hstop j)
        (by rw [hev']; exact recStep_chunk_speaking cfg _ d p _ hdlen hupd2 hstarted)]
      refine ih (j + 1) _ (by omega) (by omega) (by omega) ?_ hstarted hdet rfl
        (by simp [hit]) hsc hec
      show st.speechBuf ++ [d] = _
      have hstep : framesOf events (K - cfg.preSpeechChunks)
          (cfg.preSpeechChunks + (j - K)) ++ [evData (events j)] =
          framesOf events (K - cfg.preSpeechChunks)
            (cfg.preSpeechChunks + (j - K) + 1) := by
        have h5 := framesOf_append_one events (K - cfg.preSpeechChunks)
          (cfg.preSpeechChunks + (j - K))
        rwa [show K - cfg.preSpeechChunks + (cfg.preSpeechChunks + (j - K)) = j
          by omega] at h5
      rw [hbuf, ← hdata, hstep]
      congr 1
      omega
    · have hjeq : j = K + M := by omega
      subst hjeq
      rw [houtend] at hu
      have hupd2 : updateState cfg.pads st.vad (decide (cfg.threshold ≤ p)) =
          (SpeechState.speech_end, vadAtF cfg.pads (recBools cfg events) (K + M + 1)) := by
        rw [hvad, ← hb]; exact hu
      rw [recLoop_succ_brk cfg events stop m (K + M) st _ (hstop (K + M))
        (by rw [hev']; exact recStep_chunk_end cfg _ d p _ hdlen hupd2 hstarted)]
      refine ⟨_, rfl, ?_, by simp [hit], by simpa using hdet, by simpa using hsc,
        by simp [hec]⟩
      show st.speechBuf ++ [d] = _
      have hstep : framesOf events (K - cfg.preSpeechChunks)
          (cfg.preSpeechChunks + (K + M - K)) ++ [evData (events (K + M))] =
          framesOf events (K - cfg.preSpeechChunks)
            (cfg.preSpeechChunks + (K + M - K) + 1) := by
        have h5 := framesOf_append_one events (K - cfg.preSpeechChunks)
          (cfg.preSpeechChunks + (K + M - K))
        rwa [show K - cfg.preSpeechChunks + (cfg.preSpeechChunks + (K + M - K)) = K + M
          by omega] at h5
      rw [hbuf, ← hdata, hstep]
      congr 1
      omega

lemma recLoop_prespeech (cfg : RecConfig) (events : ℕ → MicEvent) (stop : ℕ → Bool)
    (K M : ℕ)
    (hstop : ∀ i, stop i = false)
    (hev : ∀ i, i ≤ K + M → evIsChunk (events i) = true ∧
      (evData (events i)).length = cfg.expectedSamples)
    (houtsil : ∀ i, i < K →
      outAtF cfg.pads (recBools cfg events) i = SpeechState.silence)
    (houtK : outAtF cfg.pads (recBools cfg events) K = SpeechState.speech_start)
    (houtspk : ∀ i, K < i → i < K + M →
      outAtF cfg.pads (recBools cfg events) i = SpeechState.speaking)
    (houtend : outAtF cfg.pads (recBools cfg events) (K + M) = SpeechState.speech_end)
    (hM : 1 ≤ M) (hpre : 1 ≤ cfg.preSpeechChunks) (hKpre : cfg.preSpeechChunks ≤ K)
    (hpremax : cfg.preSpeechChunks ≤ cfg.maxSilenceChunks) :
    ∀ (n j : ℕ) (st : RecState), j ≤ K → K + M + 1 ≤ j + n →
      st.audioBuf = lastN cfg.maxSilenceChunks (framesOf events 0 j) →
      st.speechBuf = [] → st.speechStarted = false → st.speechDetected = false →
      st.vad = vadAtF cfg.pads (recBools cfg events) j →
      st.iters = j → st.startCalls = 0 → st.endCalls = 0 →
      ∃ st', recLoop cfg events stop n j st = Except.ok st' ∧
        st'.speechBuf = framesOf events (K - cfg.preSpeechChunks)
          (cfg.preSpeechChunks + M + 1) ∧
        st'.iters = K + M + 1 ∧ st'.speechDetected = true ∧
        st'.startCalls = 1 ∧ st'.endCalls = 1 := by
  intro n
  induction n with
  | zero => intro j st h1 h2; omega
  | succ m ih =>
    intro j st h1 h2 habuf hsbuf hstarted hdet hvad hit hsc hec
    obtain ⟨hchunk, hlen⟩ := hev j (by omega)
    obtain ⟨d, p, hev'⟩ : ∃ d p, events j = MicEvent.chunk d p := by
      rcases hevj : events j with _ | ⟨d, p⟩
      · rw [hevj] at hchunk; simp [evIsChunk] at hchunk
      · exact ⟨d, p, rfl⟩
    have hdlen : d.length = cfg.expectedSamples := by
      rw [hev'] at hlen; simpa [evData] using hlen
    have hb : recBools cfg events j = decide (cfg.threshold ≤ p) := by
      unfold recBools; rw [hev']; rfl
    have hu : updateState cfg.pads (vadAtF cfg.pads (recBools cfg events) j)
        (recBools cfg events j) =
        (outAtF cfg.pads (recBools cfg events) j,
          vadAtF cfg.pads (recBools cfg events) (j + 1)) := rfl
    have hdata : evData (events j) = d := by rw [hev']; rfl
    rcases Nat.lt_or_ge j K with hjlt | hjge
    · -- still in the pre-speech phase: a SILENCE frame
      rw [houtsil j hjlt] at hu
      have hupd2 : updateState cfg.pads st.vad (decide (cfg.threshold ≤ p)) =
          (SpeechState.silence, vadAtF cfg.pads (recBools cfg events) (j + 1)) := by
        rw [hvad, ← hb]; exact hu
      rw [recLoop_succ_cont cfg events stop m j st _ (hstop j)
        (by rw [hev']; exact recStep_chunk_silence cfg _ d p _ hdlen hupd2)]
      refine ih (j + 1) _ (by omega) (by omega) ?_ hsbuf hstarted hdet rfl
        (by simp [hit]) hsc hec
      show (if cfg.maxSilenceChunks < (st.audioBuf ++ [d]).length then
          (st.audioBuf ++ [d]).drop 1 else st.audioBuf ++ [d]) = _
      rw [habuf, ← hdata, lastN_cap]
      rw [show framesOf events 0 j ++ [evData (events j)] = framesOf events 0 (j + 1) by
        have h5 := framesOf_append_one events 0 j
        simpa using h5]
    · -- j = K: the SPEECH_START frame
      have hjeq : j = K := by omega
      subst hjeq
      rw [houtK] at hu
      have hupd2 : updateState cfg.pads st.vad (decide (cfg.threshold ≤ p)) =
          (SpeechState.speech_start, vadAtF cfg.pads (recBools cfg events) (j + 1)) := by
        rw [hvad, ← hb]; exact hu
      rw [recLoop_succ_cont cfg events stop m j st _ (hstop j)
        (by rw [hev']; exact recStep_chunk_start cfg _ d p _ hdlen hupd2)]
      refine recLoop_speech cfg events stop j M hstop hev houtspk houtend hKpre m
        (j + 1) _ (by omega) (by omega) (by omega) ?_ rfl rfl rfl (by simp [hit])
        (by simp [hsc]) hec
      show st.speechBuf ++ pyTakeLast cfg.preSpeechChunks st.audioBuf ++ [d] = _
      rw [hsbuf, habuf, pyTakeLast_lastN _ _ _ hpre hpremax,
        lastN_framesOf events j _ hKpre, ← hdata]
      have h5 := framesOf_append_one events (j - cfg.preSpeechChunks)
        cfg.preSpeechChunks
      rw [show j - cfg.preSpeechChunks + cfg.preSpeechChunks = j by omega] at h5
      rw [List.nil_append, h5]
      congr 1
      omega

/-! ## Claim theorems: look-back splice and immediate termination (C3) -/

/-- C3.  For a run (no stop request, no overflowed reads, well-formed
chunks) in which the detector emits `SILENCE` before frame `K`,
`SPEECH_START` at frame `K` (with at least the look-back capacity of
frames before it), `SPEAKING` strictly between `K` and `K+M`, and
`SPEECH_END` at frame `K+M` within the iteration budget:
`record_utterance` returns the look-back window of
`pre_speech` frames immediately preceding `K` followed by exactly the
frames `K .. K+M` in arrival order, invokes each callback once, and the
read loop terminates at iteration `K+M+1` instead of running out the
remaining `max_duration` budget. -/
theorem c3_lookback_splice :
    ∀ (cfg : RecConfig) (events : ℕ → MicEvent) (stop : ℕ → Bool) (maxD minD : ℚ)
      (K M : ℕ),
      (∀ i, stop i = false) →
      (∀ i, i ≤ K + M → evIsChunk (events i) = true ∧
        (evData (events i)).length = cfg.expectedSamples) →
      (∀ i, i < K → outAtF cfg.pads (recBools cfg events) i = SpeechState.silence) →
      outAtF cfg.pads (recBools cfg events) K = SpeechState.speech_start →
      (∀ i, K < i → i < K + M →
        outAtF cfg.pads (recBools cfg events) i = SpeechState.speaking) →
      outAtF cfg.pads (recBools cfg events) (K + M) = SpeechState.speech_end →
      1 ≤ M → 1 ≤ cfg.preSpeechChunks → cfg.preSpeechChunks ≤ K →
      cfg.preSpeechChunks ≤ cfg.maxSilenceChunks →
      K + M + 1 ≤ maxChunksOf maxD cfg.sampleRate cfg.chunkSamples →
      ∃ r, recordUtterance cfg events stop maxD minD = Except.ok r ∧
        r.audio = (framesOf events (K - cfg.preSpeechChunks)
          (cfg.preSpeechChunks + M + 1)).flatten ∧
        r.iters = K + M + 1 ∧ r.startCalls = 1 ∧ r.endCalls = 1 ∧
        r.speechObserved = true := by
  intro cfg events stop maxD minD K M hstop hev houtsil houtK houtspk houtend hM
    hpre hKpre hpremax hfuel
  obtain ⟨st', hrl, hbuf, hiters, hdet, hsc, hec⟩ :=
    recLoop_prespeech cfg events stop K M hstop hev houtsil houtK houtspk houtend
      hM hpre hKpre hpremax (maxChunksOf maxD cfg.sampleRate cfg.chunkSamples) 0
      recInit (by omega) (by omega) (by simp [recInit, lastN, framesOf]) rfl rfl rfl
      rfl rfl rfl rfl
  have hne : st'.speechBuf.isEmpty = false := by
    rw [hbuf]
    have h5 : (framesOf events (K - cfg.preSpeechChunks)
        (cfg.preSpeechChunks + M + 1)).length = cfg.preSpeechChunks + M + 1 :=
      framesOf_length events _ _
    rcases hf : framesOf events (K - cfg.preSpeechChunks)
        (cfg.preSpeechChunks + M + 1) with _ | ⟨a, l⟩
    · rw [hf] at h5; simp at h5
    · rfl
  refine ⟨_, by rw [recordUtterance, hrl]; rfl, ?_, ?_, ?_, ?_, ?_⟩
  · show (if st'.speechBuf.isEmpty then _ else st'.speechBuf.flatten) = _
    rw [hne, hbuf]
    rfl
  · simpa using hiters
  · simpa using hsc
  · simpa using hec
  · simpa using hdet

/-- Witness for C3: threshold 1, pads 2/2, look-back capacity 2 of max 3;
probabilities are 1 on frames 2-5 and 0 elsewhere, so `SPEECH_START`
fires at frame K = 3 and `SPEECH_END` at frame K + M = 7, inside the
16-iteration budget of a 1 s recording. -/
theorem c3_lookback_splice_witness :
    ∃ r, recordUtterance ⟨16, 1, 2, 3, 1, 1, ⟨2, 2⟩⟩
        (fun i => MicEvent.chunk [0] (if 2 ≤ i ∧ i ≤ 5 then 1 else 0))
        (fun _ => false) 1 0 = Except.ok r ∧
      r.audio = (framesOf (fun i => MicEvent.chunk [0] (if 2 ≤ i ∧ i ≤ 5 then 1 else 0))
        (3 - 2) (2 + 4 + 1)).flatten ∧
      r.iters = 3 + 4 + 1 ∧ r.startCalls = 1 ∧ r.endCalls = 1 ∧
      r.speechObserved = true :=
  c3_lookback_splice ⟨16, 1, 2, 3, 1, 1, ⟨2, 2⟩⟩
    (fun i => MicEvent.chunk [0] (if 2 ≤ i ∧ i ≤ 5 then 1 else 0))
    (fun _ => false) 1 0 3 4
    (fun _ => rfl) (by decide) (by decide) (by decide)
    (by intro i h1 h2; interval_cases i <;> decide) (by decide)
    (by decide) (by decide) (by decide) (by decide)
    (by norm_num [maxChunksOf, pyInt])

/-- Witness for C6 at a concrete all-silence stream. -/
theorem c6_silence_recording_witness :
    ∃ r, recordUtterance ⟨16, 8, 2, 3, 1, 1, ⟨3, 10⟩⟩ (fun _ => MicEvent.chunk [0] 0)
        (fun _ => false) 0 0 = Except.ok r ∧
      r.wasSpeechDetected = false ∧ r.speechObserved = false ∧
      r.audio = List.replicate (16 / 10) 0 ∧ r.audio ≠ [] ∧
      r.iters ≤ maxChunksOf 0 16 8 :=
  c6_silence_recording.1 ⟨16, 8, 2, 3, 1, 1, ⟨3, 10⟩⟩ (fun _ => MicEvent.chunk [0] 0)
    (fun _ => false) 0 0 (by decide) (by decide)
    (fun i d p h => by cases h; exact ⟨rfl, by decide⟩)

end Polyglott
